import Mathlib

/-!
Verification of the job_finder scraping pipeline: a shallow embedding of
`src/filters.py`, `src/aggregator.py`, `src/scrapers/site_scraper.py` and
`src/scrapers/langchain_agent.py`.  External collaborators (the HTTP
transport `requests.get`, the HTML link extractor, `urllib.parse.urljoin`,
the headless browser page sequence and the LLM service) are passed in as
oracle parameters; everything the repository itself computes is embedded
faithfully, including evaluation order of fallible dictionary accesses,
which are modelled with `Except`.
-/

set_option maxRecDepth 4000

namespace JobFinder

abbrev Url := String

/-- Python's `s.startswith(pre)`, modelled on the character lists. -/
def startsWithStr (s pre : String) : Bool := pre.toList.isPrefixOf s.toList

/-- ASCII-lowering of a string's characters, modelling Python's
`str.lower` / `re.IGNORECASE` on the ASCII keyword sets used by the
scraper. -/
def lowerChars (s : String) : List Char := s.toList.map Char.toLower

/-- Tests whether `needle` occurs contiguously inside `hay`. -/
def isSubChars (needle : List Char) : List Char → Bool
  | [] => needle.isEmpty
  | c :: rest => needle.isPrefixOf (c :: rest) || isSubChars needle rest

/-- Model of Python's case-insensitive substring
test (`needle.lower() in hay.lower()`, or `re.search(needle, hay, re.I)`
for a literal keyword). -/
def containsSub (hay needle : String) : Bool :=
  isSubChars (lowerChars needle) (lowerChars hay)

deriving instance DecidableEq for Except

/-- A job record.  Python jobs are dicts, so every field is optional;
reading an absent field raises `KeyError`, modelled via `Except` below. -/
structure Job where
  title : Option String
  company : Option String
  url : Option String
  location : Option String
  job_type : Option String
  experience : Option Int
deriving DecidableEq

/-- The `filters` section of `config.yaml` as a dict: a field is `none`
when the key is absent. -/
structure FilterConfig where
  job_titles : Option (List String)
  min_experience_years : Option Int
  max_experience_years : Option Int
  locations : Option (List String)
  job_type : Option (List String)
deriving DecidableEq

/-- Python truthiness of the `filter_config` dict (`not filter_config`):
an empty dict is falsy. -/
def FilterConfig.isEmptyDict (c : FilterConfig) : Bool :=
  c.job_titles.isNone && c.min_experience_years.isNone &&
  c.max_experience_years.isNone && c.locations.isNone && c.job_type.isNone

/-- Dictionary access `d[k]`, raising `KeyError k` when absent. -/
def getKey (v : Option α) (k : String) : Except String α :=
  match v with
  | some x => Except.ok x
  | none => Except.error k

/-- The per-job body of the loop in `filter_jobs` (filters.py lines 26-41),
with the four dimension checks evaluated in source order.  `job_titles`
empty makes `any(...)` `False` without touching `job["title"]`; the
location / job_type accesses happen whenever their filter list is
non-empty, before the final conjunction. -/
def jobPasses (job_titles : List String) (minE maxE : Int)
    (locations job_type_filters : List String) (job : Job) :
    Except String Bool := do
  let title_ok ←
    if job_titles.isEmpty then pure false
    else do
      let t ← getKey job.title "title"
      pure (job_titles.any (fun pat => containsSub t pat))
  let experience_ok :=
    match job.experience with
    | none => true
    | some e => decide (minE ≤ e) && decide (e ≤ maxE)
  let location_ok ←
    if locations.isEmpty then pure true
    else do
      let l ← getKey job.location "location"
      pure (locations.any (fun pat => containsSub l pat))
  let job_type_ok ←
    if job_type_filters.isEmpty then pure true
    else do
      let jt ← getKey job.job_type "job_type"
      pure (job_type_filters.any (fun pat => containsSub jt pat))
  pure (title_ok && experience_ok && location_ok && job_type_ok)

/-- The filtering loop over `jobs`, preserving input order; a `KeyError`
on any job propagates out of `filter_jobs`. -/
def filterLoop (job_titles : List String) (minE maxE : Int)
    (locations job_type_filters : List String) :
    List Job → Except String (List Job)
  | [] => Except.ok []
  | j :: rest => do
    let ok ← jobPasses job_titles minE maxE locations job_type_filters j
    let tail ← filterLoop job_titles minE maxE locations job_type_filters rest
    pure (if ok then j :: tail else tail)

/-- Embedding of `filter_jobs(jobs, filter_config)` from `src/filters.py`. -/
def filter_jobs (jobs : List Job) (cfg : FilterConfig) :
    Except String (List Job) :=
  if cfg.isEmptyDict then Except.ok jobs
  else
    filterLoop (cfg.job_titles.getD []) (cfg.min_experience_years.getD 0)
      (cfg.max_experience_years.getD 100) (cfg.locations.getD [])
      (cfg.job_type.getD []) jobs

/-! ## The retrying fetch layer (`_get_with_retries`) -/

/-- A `requests.Response`: status code, redirect history, final resolved
URL (`response.url`) and body text. -/
structure Response where
  status_code : Nat
  history : List Url
  url : Url
  text : String
deriving DecidableEq

/-- Outcome of one `requests.get` call: a response, or a raised
`requests.exceptions.RequestException`. -/
inductive GetResult where
  | ok (r : Response)
  | exn
deriving DecidableEq

def MAX_RETRIES : Nat := 3

/-- Bookkeeping for one failed attempt with index `a`: the eventual
result is whatever the remaining attempts produce, with one more attempt
counted and the `time.sleep(2 ** a)` delay recorded. -/
def retryStep (a : Nat) (p : Option Response × Nat × List Nat) :
    Option Response × Nat × List Nat :=
  (p.1, p.2.1 + 1, 2 ^ a :: p.2.2)

/-- One pass of the `for attempt in range(MAX_RETRIES)` loop of
`site_scraper.py`'s `_get_with_retries`, over the list of remaining
attempt indices.  The HTTP transport is the oracle `get : Url →
GetResult` (deterministic per URL within one call).  Besides the result,
the model returns the number of attempts performed and the list of
`time.sleep(2 ** attempt)` delays, in order.  On a 200 response with a
non-empty redirect history the final URL is fetched once more and that
second response is returned as-is; if that second fetch raises, the
`except` clause catches it and the loop retries. -/
def getWithRetriesAux (get : Url → GetResult) (u : Url) :
    List Nat → Option Response × Nat × List Nat
  | [] => (none, 0, [])
  | a :: rest =>
    match get u with
    | GetResult.ok r =>
      if r.status_code = 200 then
        if r.history.isEmpty then (some r, 1, [])
        else
          match get r.url with
          | GetResult.ok r2 => (some r2, 1, [])
          | GetResult.exn => retryStep a (getWithRetriesAux get u rest)
      else retryStep a (getWithRetriesAux get u rest)
    | GetResult.exn => retryStep a (getWithRetriesAux get u rest)

/-- Embedding of `SiteScraper._get_with_retries` from `src/scrapers/site_scraper.py`
(lines 239-259). -/
def get_with_retries (get : Url → GetResult) (u : Url) :
    Option Response × Nat × List Nat :=
  getWithRetriesAux get u (List.range MAX_RETRIES)

/-- The `langchain_agent.py` copy of `_get_with_retries` (lines 136-147):
identical loop but without the redirect re-fetch branch. -/
def lcGetWithRetriesAux (get : Url → GetResult) (u : Url) :
    List Nat → Option Response × Nat × List Nat
  | [] => (none, 0, [])
  | a :: rest =>
    match get u with
    | GetResult.ok r =>
      if r.status_code = 200 then (some r, 1, [])
      else retryStep a (lcGetWithRetriesAux get u rest)
    | GetResult.exn => retryStep a (lcGetWithRetriesAux get u rest)

def lc_get_with_retries (get : Url → GetResult) (u : Url) :
    Option Response × Nat × List Nat :=
  lcGetWithRetriesAux get u (List.range MAX_RETRIES)

/-! ## Career-page location (`find_careers_pages`) -/

/-- Embedding of `SiteScraper._build_absolute_url`: keeps absolute URLs unchanged,
otherwise defers to `urllib.parse.urljoin` (an external collaborator,
passed as the oracle `urljoin`). -/
def build_absolute_url (urljoin : Url → Url → Url) (base rel : Url) : Url :=
  if startsWithStr rel "http" then rel else urljoin base rel

/-- The per-href resolution in `find_careers_pages` (site_scraper.py
lines 54-58): `https`/`http`-prefixed hrefs pass through, the rest go
through `_build_absolute_url`. -/
def resolveHref (urljoin : Url → Url → Url) (company_url href : Url) : Url :=
  if startsWithStr href "https" || startsWithStr href "http" then href
  else build_absolute_url urljoin company_url href

/-- The keyword test `re.search(r"careers|jobs|join-our-team|join-us", url, re.IGNORECASE)`
(site_scraper.py line 60). -/
def careerKeyword (u : Url) : Bool :=
  containsSub u "careers" || containsSub u "jobs" ||
  containsSub u "join-our-team" || containsSub u "join-us"

/-- The loop body of `find_careers_pages` (site_scraper.py lines 51-62):
resolve the href, and append it when it matches a career keyword and is
not already in the accumulator. -/
def careersStep (urljoin : Url → Url → Url) (company_url : Url)
    (acc : List Url) (href : Url) : List Url :=
  let full_url := resolveHref urljoin company_url href
  if careerKeyword full_url && !acc.contains full_url then acc ++ [full_url]
  else acc

/-- Embedding of `SiteScraper.find_careers_pages` from `src/scrapers/site_scraper.py`
(lines 41-64).  `parseLinks` is the BeautifulSoup collaborator returning
the `href` targets of the document's `<a href=...>` tags in document
order. -/
def find_careers_pages (get : Url → GetResult)
    (parseLinks : String → List Url) (urljoin : Url → Url → Url)
    (company_url : Url) : List Url :=
  match (get_with_retries get company_url).1 with
  | none => [company_url]
  | some response =>
    let careers_pages := (parseLinks response.text).foldl
      (careersStep urljoin company_url) []
    if careers_pages.isEmpty then [company_url] else careers_pages

/-- The keyword test `re.search(r"careers|jobs|join-us", url, re.IGNORECASE)` —
the keyword set of the `langchain_agent.py` copy (line 89). -/
def lcCareerKeyword (u : Url) : Bool :=
  containsSub u "careers" || containsSub u "jobs" || containsSub u "join-us"

/-- The loop body of the `langchain_agent.py` locator (lines 87-90): no
duplicate suppression, `http`-prefix test only. -/
def lcCareersStep (urljoin : Url → Url → Url) (company_url : Url)
    (acc : List Url) (href : Url) : List Url :=
  let full_url :=
    if startsWithStr href "http" then href else urljoin company_url href
  if lcCareerKeyword full_url then acc ++ [full_url] else acc

/-- The `langchain_agent.py` copy of `find_careers_pages` (lines 79-91):
no duplicate suppression, `http`-prefix test only, three keywords. -/
def lc_find_careers_pages (get : Url → GetResult)
    (parseLinks : String → List Url) (urljoin : Url → Url → Url)
    (company_url : Url) : List Url :=
  match (lc_get_with_retries get company_url).1 with
  | none => [company_url]
  | some response =>
    let careers_pages := (parseLinks response.text).foldl
      (lcCareersStep urljoin company_url) []
    if careers_pages.isEmpty then [company_url] else careers_pages

/-- Appends each element of `vs` to `acc` unless it is
already present — the spec's "suppressing a URL already present in the
accumulator". -/
def keepNew (acc : List Url) : List Url → List Url
  | [] => acc
  | v :: rest => keepNew (if acc.contains v then acc else acc ++ [v]) rest

/-- Modelled from the spec's words (§4.2) for refinement comparison:
resolve every hyperlink to an absolute URL, keep those matching the
career keyword set in document order, suppressing URLs already
accumulated. -/
def specLocatorPages (urljoin : Url → Url → Url) (company_url : Url)
    (links : List Url) : List Url :=
  keepNew []
    (((links.map (resolveHref urljoin company_url)).filter
      (fun v => careerKeyword v)))

/-! ## Job normalization, pagination and the extraction cascade -/

/-- Embedding of `SiteScraper._extract_job_data` (site_scraper.py lines 234-237):
`title = elem.get_text(strip=True)[:50]`; an empty title discards the
element; the resulting dict has only the `company`, `title`, `url` keys.
`elemText` is the element's stripped visible text. -/
def extract_job_data (elemText company_url source_url : String) :
    Option Job :=
  let title := elemText.take 50
  if title = "" then none
  else some ⟨some title, some company_url, some source_url, none, none, none⟩

/-- One browser page as rendered for `playwright_scrape`: the stripped
texts of the elements matching
`[class*=job], [class*=position], [class*=listing]`, and whether a
next-page control (`a[aria-label=Next], a.next, button.next`) exists. -/
structure RenderedPage where
  job_elems : List String
  hasNext : Bool

/-- The `for page_num in range(1, max_pages + 1)` pagination loop of
`SiteScraper.playwright_scrape` (site_scraper.py lines 179-209), over the
page sequence `pages` (page `i` is what the browser shows after `i`
next-page clicks).  Returns the collected jobs and the number of loop
iterations performed: `break` on a page with zero matching elements, or
after processing a page with no next-page control. -/
def playwrightLoopAux (pages : Nat → RenderedPage)
    (company_url source_url : Url) (i : Nat) :
    Nat → List Job × Nat
  | 0 => ([], 0)
  | n + 1 =>
    let p := pages i
    if p.job_elems.isEmpty then ([], 1)
    else
      let jobs := p.job_elems.filterMap
        (fun t => extract_job_data t company_url source_url)
      if p.hasNext then
        let r := playwrightLoopAux pages company_url source_url (i + 1) n
        (jobs ++ r.1, r.2 + 1)
      else (jobs, 1)

/-- Embedding of `SiteScraper.playwright_scrape(url, company_url, max_pages=3)`:
jobs collected and iterations used. -/
def playwright_scrape (pages : Nat → RenderedPage)
    (company_url source_url : Url) (max_pages : Nat) : List Job × Nat :=
  playwrightLoopAux pages company_url source_url 0 max_pages

/-- Embedding of `SiteScraper._scrape_jobs_with_fallback` (site_scraper.py lines
91-144).  `deepPages` is `_find_deep_career_pages(url)`; `naive` and
`render` are the static and browser-rendered strategies (collaborators
`_naive_parse_job_page` / `_playwright_scrape_jobs`); `use_llm` and
`llm` model `self.use_llm` and `self.llm_service`.  Returns the jobs
together with the number of times each strategy was invoked
(static, rendered, llm). -/
def scrape_jobs_with_fallback (deepPages : List Url)
    (naive render : Url → List Job) (use_llm : Bool)
    (llm : Option (Url → List Job)) (url company_url : Url) :
    List Job × Nat × Nat × Nat :=
  let job_page_urls := if deepPages.isEmpty then [url] else deepPages
  let (all_jobs, nNaive, nRender) := job_page_urls.foldl
    (fun acc page =>
      let (jobs, nN, nR) := acc
      let naiveJobs := naive page
      if naiveJobs.isEmpty then
        let renderedJobs := render page
        (jobs ++ renderedJobs, nN + 1, nR + 1)
      else (jobs ++ naiveJobs, nN + 1, nR)) ([], 0, 0)
  match all_jobs, use_llm, llm with
  | [], true, some f => (f company_url, nNaive, nRender, 1)
  | _, _, _ => (all_jobs, nNaive, nRender, 0)

/-! ## The aggregation orchestrator (`Aggregator.run`) -/

/-- Model of `asyncio.gather(*tasks)` with the default `return_exceptions=False`:
if any task raises, the exception propagates to the awaiting caller
(modelled as the first error in task order); otherwise all result lists
are returned in submission order. -/
def gatherResults : List (Except String (List Job)) →
    Except String (List (List Job))
  | [] => Except.ok []
  | Except.error e :: _ => Except.error e
  | Except.ok a :: rest => (gatherResults rest).map (a :: ·)

/-- Embedding of `Aggregator.run` from `src/aggregator.py` (lines 17-41): awaits the
gather of one `scrape_company_jobs` task per company (each task outcome
given as an `Except`), then extends `all_jobs` with each non-empty result
in input order.  The `try/except` inside the result loop only wraps that
post-gather processing, not the gather itself. -/
def aggregatorRun (jobResults : List (Except String (List Job))) :
    Except String (List Job) := do
  let job_results ← gatherResults jobResults
  pure (job_results.foldl (fun acc job_posts => acc ++ job_posts) [])

end JobFinder

namespace JobFinder

-- sanity examples (spec §8 scenario)
def jobSenior : Job :=
  ⟨some "Senior Engineer", some "acme", some "https://acme.com/careers",
   some "Remote", none, some 6⟩

def cfgScenario : FilterConfig :=
  ⟨some ["engineer"], some 3, some 8, some ["remote"], none⟩

/-! ## Concrete inputs used in the evaluation theorems -/

/-- A config whose only present field is a non-empty `locations` list;
`job_titles` is absent. -/
def cfgLocOnly : FilterConfig := ⟨none, none, none, some ["remote"], none⟩

/-- A config whose only present field is a non-empty `job_titles` list;
both experience bounds are absent. -/
def cfgTitleOnly : FilterConfig := ⟨some ["engineer"], none, none, none, none⟩

/-- A config with all five fields present but empty. -/
def cfgAllEmptyFields : FilterConfig := ⟨some [], none, none, some [], some []⟩

/-- A config with every field absent: the dict `{}` itself, which is
falsy in Python. -/
def cfgAllAbsent : FilterConfig := ⟨none, none, none, none, none⟩

/-- A job with a location that the `cfgLocOnly` filter matches. -/
def jobEng : Job :=
  ⟨some "Senior Engineer", some "acme", some "https://acme.com",
   some "Remote", none, none⟩

/-- A job whose experience (150) exceeds the implicit default upper
bound 100 used when `max_experience_years` is absent. -/
def jobExp150 : Job :=
  ⟨some "Staff Engineer", some "acme", some "https://acme.com",
   none, none, some 150⟩

/-- The job record `_extract_job_data` produces for a matched element:
only `company`, `title`, `url` keys. -/
def jobScraped : Job :=
  ⟨some "Senior Engineer", some "https://acme.com",
   some "https://acme.com/careers", none, none, none⟩

def jobA : Job := ⟨some "A", some "c1", some "u1", none, none, none⟩

def jobC : Job := ⟨some "C", some "c3", some "u3", none, none, none⟩

/-- A 200 response for the original URL carrying a redirect history and
resolving to `https://b.example/final`. -/
def respStub : Response :=
  ⟨200, ["https://a.example/old"], "https://b.example/final", "stub"⟩

/-- A 500 response served at the final resolved URL. -/
def respBad : Response := ⟨500, [], "https://b.example/final", "error"⟩

/-- HTTP oracle: the original URL answers 200-with-redirect-history, the
final URL (and anything else) answers 500. -/
def getRedirect : Url → GetResult := fun v =>
  if v = "https://a.example/old" then GetResult.ok respStub
  else GetResult.ok respBad

/-- A plain 200 response with no redirect history. -/
def respOk : Response := ⟨200, [], "https://d.example", "body"⟩

def getOk : Url → GetResult := fun _ => GetResult.ok respOk

/-- An endpoint that always returns 500. -/
def resp500 : Response := ⟨500, [], "https://s.example", "err"⟩

def get500 : Url → GetResult := fun _ => GetResult.ok resp500

/-- A transport where every request raises. -/
def getFail : Url → GetResult := fun _ => GetResult.exn

/-- A homepage whose document yields a duplicated careers link followed
by a join-our-team link. -/
def linksDup : String → List Url := fun _ =>
  ["https://x.example/careers", "https://x.example/careers",
   "https://x.example/join-our-team"]

/-- A concrete stand-in for `urllib.parse.urljoin` (never reached by the
absolute links above). -/
def joinUrl : Url → Url → Url := fun b r => b ++ r

/-- A page sequence whose first page lists one element and offers a
next-page control, while every later page is empty (but still offers a
control). -/
def pagesW : Nat → RenderedPage := fun i =>
  if i = 0 then ⟨["Engineer role"], true⟩ else ⟨[], true⟩

end JobFinder

namespace JobFinder

-- sanity check: the spec §8 filtering scenario
example : filter_jobs [jobSenior] cfgScenario = Except.ok [jobSenior] := by decide

/-! ## Evaluation theorems for the code-bug and counterexample claims -/

/-- C1: the claim says an empty/absent `job_titles` list imposes no
constraint, and likewise absent experience bounds.  Evaluating
`filter_jobs` at the failing inputs shows the opposite: with a non-empty
config whose `job_titles` is absent, `any()` over the empty title list
is `False` and every job is rejected (`jobEng` matches the location
filter yet the result is empty); and with both experience bounds absent
a job with experience 150 is rejected by the implicit `0..100`
defaults. -/
theorem filter_empty_title_list_rejects_all_eval :
    filter_jobs [jobEng] cfgLocOnly = Except.ok [] ∧
    filter_jobs [jobExp150] cfgTitleOnly = Except.ok [] := by decide

/-- C2: the claim says a company's extraction exception is caught and
the run completes with the other companies' jobs.  Evaluating the
embedded `Aggregator.run` on three companies where company #2 raises
shows the exception propagating out of `asyncio.gather` instead: the run
aborts rather than returning the jobs of companies #1 and #3. -/
theorem aggregator_run_aborts_on_exception_eval :
    aggregatorRun [Except.ok [jobA], Except.error "boom", Except.ok [jobC]] =
      Except.error "boom" ∧
    aggregatorRun [Except.ok [jobA], Except.error "boom", Except.ok [jobC]] ≠
      Except.ok [jobA, jobC] := by decide

/-- C4: the identity law holds only when the config dict itself is falsy
(every field absent); a config whose fields are all present but empty is
truthy, reaches the filtering loop, and the empty `job_titles` list then
rejects every job, so `filter(jobs, config) ≠ jobs`. -/
theorem filter_identity_only_when_config_falsy_eval :
    filter_jobs [jobSenior] cfgAllAbsent = Except.ok [jobSenior] ∧
    filter_jobs [jobSenior] cfgAllEmptyFields = Except.ok [] := by decide

/-- C6 counterexample: after a 200 response with a redirect history the
final URL is re-fetched and that second response is returned without a
status check, so the fetcher can hand back a non-200 document. -/
theorem redirect_refetch_returns_non200_eval :
    (get_with_retries getRedirect "https://a.example/old").1 = some respBad ∧
    respBad.status_code ≠ 200 := by decide

/-- C9 counterexample: on the same homepage document, the
`langchain_agent.py` locator (the copy reached from the live
`find_jobs` path) keeps a duplicated careers URL and drops the
join-our-team link, while the `site_scraper.py` locator suppresses the
duplicate and keeps it, as the claim describes. -/
theorem lc_locator_no_dedup_missing_keyword_eval :
    lc_find_careers_pages getOk linksDup joinUrl "https://home.example" =
      ["https://x.example/careers", "https://x.example/careers"] ∧
    find_careers_pages getOk linksDup joinUrl "https://home.example" =
      ["https://x.example/careers", "https://x.example/join-our-team"] := by
  decide

/-- C10: the filter is not total over jobs missing optional keys: on the
`{title, company, url}` shape produced by `_extract_job_data`, a config
with a non-empty `locations` list makes `job["location"]` raise
`KeyError` instead of returning a result. -/
theorem filter_keyerror_missing_location_eval :
    extract_job_data "Senior Engineer" "https://acme.com"
        "https://acme.com/careers" = some jobScraped ∧
    filter_jobs [jobScraped] cfgLocOnly = Except.error "location" := by decide

/-! ## The retrying fetcher under permanent failure -/

/-- When `get u` always answers a fixed non-200 response, every loop
iteration retries: the whole attempt list is consumed, each attempt
sleeping `2 ^ attempt`. -/
lemma getWithRetriesAux_all_non200 (get : Url → GetResult) (u : Url)
    (r : Response) (h1 : get u = GetResult.ok r)
    (h2 : r.status_code ≠ 200) (l : List Nat) :
    getWithRetriesAux get u l = (none, l.length, l.map (2 ^ ·)) := by
  induction l with
  | nil => rfl
  | cons a t ih => simp [getWithRetriesAux, retryStep, h1, h2, ih]

/-- Same statement for the `langchain_agent.py` copy of the loop. -/
lemma lcGetWithRetriesAux_all_non200 (get : Url → GetResult) (u : Url)
    (r : Response) (h1 : get u = GetResult.ok r)
    (h2 : r.status_code ≠ 200) (l : List Nat) :
    lcGetWithRetriesAux get u l = (none, l.length, l.map (2 ^ ·)) := by
  induction l with
  | nil => rfl
  | cons a t ih => simp [lcGetWithRetriesAux, retryStep, h1, h2, ih]

/-- C5: against an endpoint that always returns a non-200 status, both
copies of `_get_with_retries` perform exactly `MAX_RETRIES = 3`
attempts, return `None` to the caller instead of raising, and the
inter-attempt delays `2 ^ attempt` are `[1, 2, 4]`, non-decreasing. -/
theorem get_with_retries_exhausts_attempts (get : Url → GetResult)
    (u : Url) (r : Response) (h1 : get u = GetResult.ok r)
    (h2 : r.status_code ≠ 200) :
    get_with_retries get u = (none, 3, [1, 2, 4]) ∧
    lc_get_with_retries get u = (none, 3, [1, 2, 4]) ∧
    List.Chain' (· ≤ ·) (get_with_retries get u).2.2 := by
  have hs : get_with_retries get u = (none, 3, [1, 2, 4]) := by
    rw [get_with_retries, getWithRetriesAux_all_non200 get u r h1 h2]
    rfl
  have hl : lc_get_with_retries get u = (none, 3, [1, 2, 4]) := by
    rw [lc_get_with_retries, lcGetWithRetriesAux_all_non200 get u r h1 h2]
    rfl
  refine ⟨hs, hl, ?_⟩
  rw [hs]
  norm_num [List.chain'_cons]

/-- C5 witness: the theorem instantiated at the always-500 endpoint
`get500`. -/
theorem get_with_retries_exhausts_attempts_witness :
    get_with_retries get500 "https://s.example" = (none, 3, [1, 2, 4]) ∧
    lc_get_with_retries get500 "https://s.example" = (none, 3, [1, 2, 4]) ∧
    List.Chain' (· ≤ ·) (get_with_retries get500 "https://s.example").2.2 :=
  get_with_retries_exhausts_attempts get500 "https://s.example" resp500
    rfl (by decide)

/-! ## What a returned document can be -/

/-- Any document produced by the retry loop comes from a 200 response:
either directly (no redirect history), or as the unchecked re-fetch of
the final URL after a 200 response with a redirect history. -/
lemma getWithRetriesAux_some_src (get : Url → GetResult) (u : Url)
    (r : Response) (l : List Nat)
    (h : (getWithRetriesAux get u l).1 = some r) :
    (get u = GetResult.ok r ∧ r.status_code = 200 ∧ r.history = []) ∨
    (∃ r0, get u = GetResult.ok r0 ∧ r0.status_code = 200 ∧
      r0.history ≠ [] ∧ get r0.url = GetResult.ok r) := by
  induction l with
  | nil => simp [getWithRetriesAux] at h
  | cons a t ih =>
    rw [getWithRetriesAux] at h
    split at h
    next r0 hg =>
      split at h
      next h200 =>
        split at h
        next hh =>
          simp only [Option.some.injEq] at h
          subst h
          exact Or.inl ⟨hg, h200, List.isEmpty_iff.mp hh⟩
        next hh =>
          split at h
          next r2 hg2 =>
            simp only [Option.some.injEq] at h
            subst h
            refine Or.inr ⟨r0, hg, h200, ?_, hg2⟩
            simpa [List.isEmpty_iff] using hh
          next hg2 =>
            simp only [retryStep] at h
            exact ih h
      next h200 =>
        simp only [retryStep] at h
        exact ih h
    next hg =>
      simp only [retryStep] at h
      exact ih h

/-- C6 (amended): a document is returned only when an attempt on the
original URL answered status 200.  Without redirect history that very
response is returned; with a redirect history the final resolved URL is
re-fetched once and that second response is returned as-is — its status
is not re-checked. -/
theorem get_with_retries_success_characterization (get : Url → GetResult)
    (u : Url) (r : Response)
    (h : (get_with_retries get u).1 = some r) :
    (get u = GetResult.ok r ∧ r.status_code = 200 ∧ r.history = []) ∨
    (∃ r0, get u = GetResult.ok r0 ∧ r0.status_code = 200 ∧
      r0.history ≠ [] ∧ get r0.url = GetResult.ok r) :=
  getWithRetriesAux_some_src get u r (List.range MAX_RETRIES) h

/-- C6 witness: the characterization applied to a direct 200 fetch. -/
theorem get_with_retries_success_characterization_witness :
    (getOk "https://d.example" = GetResult.ok respOk ∧
      respOk.status_code = 200 ∧ respOk.history = []) ∨
    (∃ r0, getOk "https://d.example" = GetResult.ok r0 ∧
      r0.status_code = 200 ∧ r0.history ≠ [] ∧
      getOk r0.url = GetResult.ok respOk) :=
  get_with_retries_success_characterization getOk "https://d.example"
    respOk (by decide)

/-! ## Strategy ordering in the extraction cascade -/

/-- C3: strict strategy order for a single target URL.  If the static
strategy yields at least one job, the result is exactly the static
strategy's jobs and the rendered and LLM strategies are invoked 0 times;
if the static strategy yields nothing and the rendered strategy yields
at least one job, the result is the rendered strategy's jobs and the LLM
strategy is still never invoked. -/
theorem cascade_prefers_static_strategy (naive render : Url → List Job)
    (use_llm : Bool) (llm : Option (Url → List Job)) (url company_url : Url) :
    (naive url ≠ [] →
      scrape_jobs_with_fallback [] naive render use_llm llm url company_url =
        (naive url, 1, 0, 0)) ∧
    (naive url = [] → render url ≠ [] →
      scrape_jobs_with_fallback [] naive render use_llm llm url company_url =
        (render url, 1, 1, 0)) := by
  constructor
  · intro h
    cases hn : naive url with
    | nil => exact absurd hn h
    | cons a as =>
      simp [scrape_jobs_with_fallback, hn]
  · intro hn h
    cases hr : render url with
    | nil => exact absurd hr h
    | cons a as =>
      simp [scrape_jobs_with_fallback, hn, hr]

/-- C3 witness: with all three collaborators configured, a static
strategy that finds one job short-circuits the rest; with an empty
static result the rendered strategy's jobs are used and the LLM is still
not invoked. -/
theorem cascade_prefers_static_strategy_witness :
    scrape_jobs_with_fallback [] (fun _ => [jobA]) (fun _ => [jobC]) true
      (some fun _ => [jobA]) "https://t.example" "https://c.example" =
      ([jobA], 1, 0, 0) ∧
    scrape_jobs_with_fallback [] (fun _ => []) (fun _ => [jobC]) true
      (some fun _ => [jobA]) "https://t.example" "https://c.example" =
      ([jobC], 1, 1, 0) :=
  ⟨(cascade_prefers_static_strategy (fun _ => [jobA]) (fun _ => [jobC]) true
      (some fun _ => [jobA]) "https://t.example" "https://c.example").1
      (by decide),
   (cascade_prefers_static_strategy (fun _ => []) (fun _ => [jobC]) true
      (some fun _ => [jobA]) "https://t.example" "https://c.example").2
      rfl (by decide)⟩

/-! ## Pagination termination and early stopping -/

/-- The pagination loop never iterates more often than the remaining
page budget. -/
lemma playwrightLoopAux_count_le (pages : Nat → RenderedPage)
    (c u : Url) :
    ∀ n i, (playwrightLoopAux pages c u i n).2 ≤ n := by
  intro n
  induction n with
  | zero => intro i; exact Nat.le_refl 0
  | succ m ih =>
    intro i
    rw [playwrightLoopAux]
    by_cases he : (pages i).job_elems.isEmpty
    · rw [if_pos he]
      exact Nat.succ_le_succ (Nat.zero_le m)
    · rw [if_neg he]
      by_cases hn : (pages i).hasNext
      · rw [if_pos hn]
        exact Nat.succ_le_succ (ih (i + 1))
      · rw [if_neg hn]
        exact Nat.succ_le_succ (Nat.zero_le m)

/-- If the first `k` pages (from index `i`) all have matching elements
and a next-page control, and page `i + k` is the first to break either
condition, the loop performs exactly `k + 1` iterations. -/
lemma playwrightLoopAux_early_stop (pages : Nat → RenderedPage)
    (c u : Url) :
    ∀ k n i, k < n →
      (∀ j, j < k → (pages (i + j)).job_elems ≠ [] ∧
        (pages (i + j)).hasNext = true) →
      ((pages (i + k)).job_elems = [] ∨ (pages (i + k)).hasNext = false) →
      (playwrightLoopAux pages c u i n).2 = k + 1 := by
  intro k
  induction k with
  | zero =>
    intro n i hk hall hstop
    obtain ⟨m, rfl⟩ := Nat.exists_eq_succ_of_ne_zero (Nat.pos_iff_ne_zero.mp hk)
    rw [playwrightLoopAux]
    simp only [Nat.add_zero] at hstop
    rcases hstop with he | hn
    · rw [if_pos (List.isEmpty_iff.mpr he)]
    · by_cases he : (pages i).job_elems.isEmpty
      · rw [if_pos he]
      · rw [if_neg he, if_neg (by simp [hn])]
  | succ k ih =>
    intro n i hk hall hstop
    obtain ⟨m, rfl⟩ := Nat.exists_eq_succ_of_ne_zero (Nat.pos_iff_ne_zero.mp
      (Nat.lt_of_le_of_lt (Nat.zero_le _) hk))
    have hfirst := hall 0 (Nat.succ_pos k)
    rw [Nat.add_zero] at hfirst
    rw [playwrightLoopAux,
      if_neg (by simp [List.isEmpty_iff, hfirst.1]), if_pos hfirst.2]
    have harg : ∀ j, j < k → (pages (i + 1 + j)).job_elems ≠ [] ∧
        (pages (i + 1 + j)).hasNext = true := by
      intro j hj
      have hsucc := hall (j + 1) (Nat.succ_lt_succ hj)
      rwa [show i + (j + 1) = i + 1 + j by omega] at hsucc
    have hstop1 : (pages (i + 1 + k)).job_elems = [] ∨
        (pages (i + 1 + k)).hasNext = false := by
      rwa [show i + 1 + k = i + (k + 1) by omega]
    simp only [ih m (i + 1) (Nat.lt_of_succ_lt_succ hk) harg hstop1]

/-- C7: the rendered strategy's pagination loop performs at most
`max_pages` iterations whatever the page sequence looks like (in
particular with a next-page control present on every page), and stops
after exactly `k + 1` iterations as soon as page `k` is the first page
yielding zero matching elements or lacking a next-page control. -/
theorem playwright_pagination_bounded (pages : Nat → RenderedPage)
    (c u : Url) (max_pages k : Nat) :
    (playwright_scrape pages c u max_pages).2 ≤ max_pages ∧
    (k < max_pages →
      (∀ j, j < k → (pages j).job_elems ≠ [] ∧ (pages j).hasNext = true) →
      ((pages k).job_elems = [] ∨ (pages k).hasNext = false) →
      (playwright_scrape pages c u max_pages).2 = k + 1) := by
  constructor
  · exact playwrightLoopAux_count_le pages c u max_pages 0
  · intro hk hall hstop
    have h := playwrightLoopAux_early_stop pages c u k max_pages 0 hk
    simp only [Nat.zero_add] at h
    exact h hall hstop

/-- C7 witness: three-page budget, page 0 full with a next control,
page 1 empty — the loop runs exactly 2 of the allowed 3 iterations. -/
theorem playwright_pagination_bounded_witness :
    (playwright_scrape pagesW "https://c.example" "https://t.example" 3).2 ≤ 3 ∧
    (playwright_scrape pagesW "https://c.example" "https://t.example" 3).2 = 2 := by
  have h := playwright_pagination_bounded pagesW "https://c.example"
    "https://t.example" 3 1
  refine ⟨h.1, h.2 (by decide) ?_ (Or.inl (by decide))⟩
  intro j hj
  have hj0 : j = 0 := Nat.lt_one_iff.mp hj
  subst hj0
  exact ⟨by decide, by decide⟩

/-! ## Career-page location: fallback and document-order pipeline -/

/-- When no link of the document matches a career keyword after
resolution, the site locator's fold leaves the accumulator untouched. -/
lemma careersFold_nomatch (urljoin : Url → Url → Url) (u : Url)
    (links : List Url)
    (h : ∀ href ∈ links, careerKeyword (resolveHref urljoin u href) = false) :
    ∀ acc, links.foldl (careersStep urljoin u) acc = acc := by
  induction links with
  | nil => intro acc; rfl
  | cons a t ih =>
    intro acc
    rw [List.foldl_cons]
    have ha := h a (List.mem_cons_self a t)
    have hstep : careersStep urljoin u acc a = acc := by
      simp [careersStep, ha]
    rw [hstep]
    exact ih (fun href hm => h href (List.mem_cons_of_mem a hm)) acc

/-- Same for the `langchain_agent.py` locator's fold and keyword set. -/
lemma lcCareersFold_nomatch (urljoin : Url → Url → Url) (u : Url)
    (links : List Url)
    (h : ∀ href ∈ links, lcCareerKeyword
      (if startsWithStr href "http" then href else urljoin u href) = false) :
    ∀ acc, links.foldl (lcCareersStep urljoin u) acc = acc := by
  induction links with
  | nil => intro acc; rfl
  | cons a t ih =>
    intro acc
    rw [List.foldl_cons]
    have ha := h a (List.mem_cons_self a t)
    have hstep : lcCareersStep urljoin u acc a = acc := by
      simp only [lcCareersStep, ha, Bool.false_eq_true, if_false]
    rw [hstep]
    exact ih (fun href hm => h href (List.mem_cons_of_mem a hm)) acc

/-- C8: neither locator ever returns an empty list; when the homepage
fetch fails, or when it succeeds but no hyperlink of the document
matches the career keywords, the result is exactly `[company_url]`. -/
theorem find_careers_pages_never_empty_fallback (get : Url → GetResult)
    (parseLinks : String → List Url) (urljoin : Url → Url → Url) (u : Url) :
    find_careers_pages get parseLinks urljoin u ≠ [] ∧
    lc_find_careers_pages get parseLinks urljoin u ≠ [] ∧
    ((get_with_retries get u).1 = none →
      find_careers_pages get parseLinks urljoin u = [u]) ∧
    ((lc_get_with_retries get u).1 = none →
      lc_find_careers_pages get parseLinks urljoin u = [u]) ∧
    (∀ resp, (get_with_retries get u).1 = some resp →
      (∀ href ∈ parseLinks resp.text,
        careerKeyword (resolveHref urljoin u href) = false) →
      find_careers_pages get parseLinks urljoin u = [u]) ∧
    (∀ resp, (lc_get_with_retries get u).1 = some resp →
      (∀ href ∈ parseLinks resp.text, lcCareerKeyword
        (if startsWithStr href "http" then href else urljoin u href) = false) →
      lc_find_careers_pages get parseLinks urljoin u = [u]) := by
  refine ⟨?_, ?_, ?_, ?_, ?_, ?_⟩
  · cases hm : (get_with_retries get u).1 with
    | none => simp [find_careers_pages, hm]
    | some resp =>
      simp only [find_careers_pages, hm]
      split
      · exact List.cons_ne_nil u []
      · next hne => exact fun hc => hne (by rw [hc]; rfl)
  · cases hm : (lc_get_with_retries get u).1 with
    | none => simp [lc_find_careers_pages, hm]
    | some resp =>
      simp only [lc_find_careers_pages, hm]
      split
      · exact List.cons_ne_nil u []
      · next hne => exact fun hc => hne (by rw [hc]; rfl)
  · intro hm; simp [find_careers_pages, hm]
  · intro hm; simp [lc_find_careers_pages, hm]
  · intro resp hm hmatch
    simp [find_careers_pages, hm,
      careersFold_nomatch urljoin u (parseLinks resp.text) hmatch]
  · intro resp hm hmatch
    simp [lc_find_careers_pages, hm,
      lcCareersFold_nomatch urljoin u (parseLinks resp.text) hmatch]

/-- C8 witness: a transport that always raises makes both locators fall
back to the homepage URL. -/
theorem find_careers_pages_never_empty_fallback_witness :
    find_careers_pages getFail linksDup joinUrl "https://h.example" =
      ["https://h.example"] ∧
    lc_find_careers_pages getFail linksDup joinUrl "https://h.example" =
      ["https://h.example"] := by
  have h := find_careers_pages_never_empty_fallback getFail linksDup joinUrl
    "https://h.example"
  exact ⟨h.2.2.1 (by decide), h.2.2.2.1 (by decide)⟩

/-- The site locator's single fold is the spec's pipeline: resolve, then
filter by keyword in document order, then suppress already-present
URLs. -/
lemma careersFold_eq_keepNew (urljoin : Url → Url → Url) (u : Url)
    (links : List Url) :
    ∀ acc, links.foldl (careersStep urljoin u) acc =
      keepNew acc ((links.map (resolveHref urljoin u)).filter
        (fun v => careerKeyword v)) := by
  induction links with
  | nil => intro acc; rfl
  | cons a t ih =>
    intro acc
    rw [List.foldl_cons, List.map_cons, List.filter_cons]
    by_cases hk : careerKeyword (resolveHref urljoin u a)
    · rw [if_pos (by simpa using hk), keepNew]
      by_cases hc : acc.contains (resolveHref urljoin u a)
      · have hstep : careersStep urljoin u acc a = acc := by
          simp [careersStep, hk, hc]
          exact List.mem_of_elem_eq_true hc
        rw [hstep, if_pos hc]
        exact ih acc
      · have hstep : careersStep urljoin u acc a =
            acc ++ [resolveHref urljoin u a] := by
          simp [careersStep, hk, hc]
          exact fun hm => hc (List.elem_eq_true_of_mem hm)
        rw [hstep, if_neg hc]
        exact ih (acc ++ [resolveHref urljoin u a])
    · rw [if_neg (by simpa using hk)]
      have hstep : careersStep urljoin u acc a = acc := by
        simp [careersStep, hk]
      rw [hstep]
      exact ih acc

/-- C9 (amended): on a successful homepage fetch, the `site_scraper.py`
locator returns exactly the spec pipeline — every hyperlink resolved to
an absolute URL (absolute hrefs unchanged, inside `resolveHref`), kept
iff it matches the four career keywords case-insensitively, in document
order, with URLs already in the accumulator suppressed — subject to the
`[company_url]` fallback when nothing matches.  (The `langchain_agent.py`
copy does not satisfy this; see the counterexample.) -/
theorem find_careers_pages_matches_spec_pipeline (get : Url → GetResult)
    (parseLinks : String → List Url) (urljoin : Url → Url → Url)
    (u : Url) (resp : Response)
    (h : (get_with_retries get u).1 = some resp) :
    find_careers_pages get parseLinks urljoin u =
      (if (specLocatorPages urljoin u (parseLinks resp.text)).isEmpty then [u]
       else specLocatorPages urljoin u (parseLinks resp.text)) := by
  simp only [find_careers_pages, h, specLocatorPages,
    careersFold_eq_keepNew urljoin u (parseLinks resp.text) []]

/-- C9 witness: the pipeline equality evaluated on the duplicated-links
homepage. -/
theorem find_careers_pages_matches_spec_pipeline_witness :
    find_careers_pages getOk linksDup joinUrl "https://home.example" =
      (if (specLocatorPages joinUrl "https://home.example"
            (linksDup respOk.text)).isEmpty
       then ["https://home.example"]
       else specLocatorPages joinUrl "https://home.example"
            (linksDup respOk.text)) :=
  find_careers_pages_matches_spec_pipeline getOk linksDup joinUrl
    "https://home.example" respOk (by decide)

end JobFinder
